import Mathlib

/-
Verification of the calendar smart-reminder scheduler and the personalized
time-estimation engine of this repository.

Shallow embedding conventions:
- JavaScript numbers that hold exact small integers are modeled as Int;
  fractional arithmetic in the estimation engine is modeled as Rat.
- Timestamps (Date values) are epoch milliseconds as Int; day boundaries sit
  at multiples of 86400000 (the model works in a fixed UTC-like zone, as the
  source does in one local zone).
- A possibly-NaN JavaScript number is modeled as Option Int (none = NaN);
  comparisons against NaN are false, arithmetic with NaN gives NaN, exactly
  as in JavaScript.
- String splitting and Number parsing are implemented structurally on the
  character list of the string so that they compute inside the kernel; they
  model String.prototype.split with a one-character separator and Number()
  on the string shapes that occur here (decimal digit runs and the empty
  string, which Number turns into 0; everything else is NaN).
-/

/-- JS NaN-able number: none is NaN. -/
abbrev JsNum := Option Int

/-- JS comparison a < b (false when either side is NaN). -/
def jsLt : JsNum → JsNum → Bool
  | some a, some b => a < b
  | _, _ => false

/-- JS comparison a <= b (false when either side is NaN). -/
def jsLe : JsNum → JsNum → Bool
  | some a, some b => a ≤ b
  | _, _ => false

/-- JS comparison a > b (false when either side is NaN). -/
def jsGt : JsNum → JsNum → Bool
  | some a, some b => b < a
  | _, _ => false

/-- JS comparison a >= b (false when either side is NaN). -/
def jsGe : JsNum → JsNum → Bool
  | some a, some b => b ≤ a
  | _, _ => false

/-- JS addition (NaN absorbing). -/
def jsAdd : JsNum → JsNum → JsNum
  | some a, some b => some (a + b)
  | _, _ => none

/-- JS subtraction (NaN absorbing). -/
def jsSub : JsNum → JsNum → JsNum
  | some a, some b => some (a - b)
  | _, _ => none

/-- Helper for splitChar: split a character list at every separator. -/
def splitCharAux (sep : Char) : List Char → List (List Char)
  | [] => [[]]
  | c :: rest =>
    if c = sep then [] :: splitCharAux sep rest
    else
      match splitCharAux sep rest with
      | [] => [[c]]
      | p :: ps => (c :: p) :: ps

/-- Structural model of the JS call str.split(sep) for a one-character
separator, as used by the source with the separator colon. -/
def splitChar (sep : Char) (s : String) : List String :=
  (splitCharAux sep s.data).map String.mk

/-- Numeric value of a nonempty run of decimal digit characters; none when
the list is empty or holds a non-digit. -/
def decDigits? (l : List Char) : Option Nat :=
  if l = [] then none
  else l.foldl (fun acc c =>
    match acc with
    | none => none
    | some v => if '0' ≤ c ∧ c ≤ '9' then some (v * 10 + (c.toNat - 48)) else none)
    (some 0)

/-- Model of JS Number() on the string forms produced by splitting the
time strings of this code base: the empty string gives 0, a run of decimal
digits gives its value, anything else gives NaN. -/
def jsNum (s : String) : JsNum :=
  if s = "" then some 0 else (decDigits? s.data).map Int.ofNat

/-- Destructuring const pair = s.split(sep).map(Number): the first two
elements, a missing element being undefined (which behaves as NaN in the
arithmetic that follows). -/
def parseHM (s : String) : JsNum × JsNum :=
  let parts := (splitChar ':' s).map jsNum
  ((parts.get? 0).join, (parts.get? 1).join)

/-- Source timeToMinutes (CalendarPage): empty string gives 0, otherwise
split on the colon, convert both parts with Number and return
hours * 60 + minutes (NaN when a part is not numeric or missing). -/
def timeToMinutes (time : String) : JsNum :=
  if time = "" then some 0
  else
    match parseHM time with
    | (some h, some m) => some (h * 60 + m)
    | _ => none

/-- Model of JS String.prototype.padStart with a one-character pad. -/
def padStart (s : String) (n : Nat) (c : Char) : String :=
  if n ≤ s.length then s else String.mk (List.replicate (n - s.length) c) ++ s

/-- Source minutesToTime (CalendarPage): h = Math.floor(minutes / 60) % 24
and m = minutes % 60, each rendered with String(x).padStart(2, zero).
Math.floor of the real quotient is Int.fdiv; the JS remainder operator
keeps the sign of the dividend, which is Int.tmod. -/
def minutesToTime (minutes : Int) : String :=
  let h := (minutes.fdiv 60).tmod 24
  let m := minutes.tmod 60
  padStart (toString h) 2 '0' ++ ":" ++ padStart (toString m) 2 '0'

/-- Source minutesToTime applied to a possibly-NaN minute count, as it is
in moveEvent; String(NaN) is the three characters NaN and padStart leaves
it unchanged. -/
def jsMinutesToTime : JsNum → String
  | some v => minutesToTime v
  | none => "NaN:NaN"

/-- Source doTimesOverlap (CalendarPage): convert the four time strings and
test startA < endB and endA > startB, with JS NaN comparison semantics. -/
def doTimesOverlap (startA endA startB endB : String) : Bool :=
  let startAMin := timeToMinutes startA
  let endAMin := timeToMinutes endA
  let startBMin := timeToMinutes startB
  let endBMin := timeToMinutes endB
  jsLt startAMin endBMin && jsGt endAMin startBMin

/-- Canonical zero-padded rendering of a two-digit number, the building
block of a valid HH:MM string as the claims describe it. -/
def pad2 (n : Nat) : String :=
  padStart (toString n) 2 '0'

/-- Canonical HH:MM string with both components zero padded. -/
def formatHHMM (h m : Nat) : String :=
  pad2 h ++ ":" ++ pad2 m

/-- Kernel-computable product of two rationals. -/
def ratMul (a b : Rat) : Rat := mkRat (a.num * b.num) (a.den * b.den)

/-- Kernel-computable sum of two rationals. -/
def ratAdd (a b : Rat) : Rat := mkRat (a.num * b.den + b.num * a.den) (a.den * b.den)

/-- Kernel-computable difference of two rationals. -/
def ratSub (a b : Rat) : Rat := mkRat (a.num * b.den - b.num * a.den) (a.den * b.den)

/-- Kernel-computable quotient of two rationals, with the division-by-zero
convention of Rat (zero), which no guarded call of the engine reaches. -/
def ratDiv (a b : Rat) : Rat := mkRat (a.num * b.den * Int.sign b.num) (a.den * b.num.natAbs)

/-- Floor of a rational, on the reduced representation. -/
def ratFloor (a : Rat) : Int := a.num.fdiv a.den

/-- Embedding of a natural count into Rat. -/
def ratOfNat (n : Nat) : Rat := mkRat (Int.ofNat n) 1

/-- Embedding of an integer into Rat. -/
def ratOfInt (n : Int) : Rat := mkRat n 1

/-- Helper for natSqrt: climb k while the next square still fits under n. -/
def natSqrtAux (n : Nat) : Nat → Nat → Nat
  | 0, k => k
  | fuel + 1, k => if (k + 1) * (k + 1) ≤ n then natSqrtAux n fuel (k + 1) else k

/-- Structural integer square root (largest k with k * k at most n), used
instead of the well-founded core Nat.sqrt so that it reduces in the kernel. -/
def natSqrt (n : Nat) : Nat := natSqrtAux n n 0

/-- Rational square root on the num/den representation, the executable
stand-in for the JS Math.sqrt double operation. Its exact value feeds only
the P90 spread, which no claim pins beyond the later floor invariant. -/
def ratSqrt (q : Rat) : Rat := mkRat (Int.ofNat (natSqrt q.num.toNat)) (natSqrt q.den)

/-- Source enum EnergyTag (types module). -/
inductive EnergyTag
  | Creative | Tedious | Admin | Social | Errand
deriving DecidableEq, Repr

/-- Source interface CompletionRecord (types module); completedAt is the
epoch-millisecond value of the stored ISO timestamp. -/
structure CompletionRecord where
  id : String
  actualDurationMinutes : Rat
  estimatedDurationMinutes : Rat
  energyTag : EnergyTag
  completedAt : Int
  subStepCount : Nat
  dayOfWeek : Nat
  difficulty : Rat
deriving DecidableEq, Repr

/-- The record argument of addRecordToHistory, an Omit of the id field. -/
structure CompletionRecordInput where
  actualDurationMinutes : Rat
  estimatedDurationMinutes : Rat
  energyTag : EnergyTag
  completedAt : Int
  subStepCount : Nat
  dayOfWeek : Nat
  difficulty : Rat
deriving DecidableEq, Repr

/-- The per-category history map Record of EnergyTag to CompletionRecord
lists; the localStorage blob is modeled as an explicit value threaded
through the store operations. -/
abbrev CompletionHistory := EnergyTag → List CompletionRecord

/-- Retention cap per category. -/
def MAX_RECORDS_PER_TAG : Nat := 100

/-- The record as stored: the input fields plus the synthetic identifier
cr- followed by Date.now(). -/
def mkCompletionRecord (record : CompletionRecordInput) (now : Int) : CompletionRecord :=
  { id := "cr-" ++ toString now,
    actualDurationMinutes := record.actualDurationMinutes,
    estimatedDurationMinutes := record.estimatedDurationMinutes,
    energyTag := record.energyTag,
    completedAt := record.completedAt,
    subStepCount := record.subStepCount,
    dayOfWeek := record.dayOfWeek,
    difficulty := record.difficulty }

/-- Descending order by completion time, the comparator of the pruning sort
in addRecordToHistory. -/
def newestFirst (a b : CompletionRecord) : Prop :=
  b.completedAt ≤ a.completedAt

instance : DecidableRel newestFirst :=
  fun a b => inferInstanceAs (Decidable (b.completedAt ≤ a.completedAt))

instance : IsTotal CompletionRecord newestFirst :=
  ⟨fun a b => le_total b.completedAt a.completedAt⟩

instance : IsTrans CompletionRecord newestFirst :=
  ⟨fun _ _ _ hab hbc => le_trans hbc hab⟩

/-- Source addRecordToHistory: assign the synthetic id, push onto the
category list, and when the list exceeds the cap sort it newest first and
truncate to the cap. The JS Array.sort is required to be stable and a
stable sort of a consistent comparator has a unique result, so the
structural insertion sort used here computes exactly that result. -/
def addRecordToHistory (history : CompletionHistory) (record : CompletionRecordInput)
    (now : Int) : CompletionHistory :=
  let newRecord := mkCompletionRecord record now
  let recordsForTag := history record.energyTag ++ [newRecord]
  if MAX_RECORDS_PER_TAG < recordsForTag.length then
    fun tag =>
      if tag = record.energyTag then
        (recordsForTag.insertionSort newestFirst).take MAX_RECORDS_PER_TAG
      else history tag
  else
    fun tag => if tag = record.energyTag then recordsForTag else history tag

/-- Source calculateEWMA: zero on empty data, otherwise a reduce seeded
with the first value that also folds over that first value again, exactly
as the JS reduce with an initial accumulator does. -/
def calculateEWMA (data : List Rat) (alpha : Rat := mkRat 3 10) : Rat :=
  match data with
  | [] => 0
  | d0 :: _ =>
    data.foldl (fun ewma value => ratAdd (ratMul alpha value) (ratMul (ratSub 1 alpha) ewma)) d0

/-- Confidence band of an estimate. -/
inductive Confidence
  | low | medium | high
deriving DecidableEq, Repr

/-- Non-null result shape of getPersonalizedEstimate. -/
structure Estimate where
  p50 : Int
  p90 : Int
  confidence : Confidence
deriving DecidableEq, Repr

/-- The newChunkInfo argument of getPersonalizedEstimate. -/
structure NewChunkInfo where
  energyTag : EnergyTag
  subStepCount : Nat
deriving DecidableEq, Repr

/-- JS Math.round: floor of the argument plus one half. -/
def jsRound (x : Rat) : Int := ratFloor (ratAdd x (mkRat 1 2))

/-- Source getPersonalizedEstimate: guard on fewer than 5 records, adjust
durations by difficulty, guard on zero total sub-steps, blend the
complexity model with the EWMA recency model (weights one half each, the
literals 0.5, 0.3 and 1.3 written as explicit fractions), spread by 1.3
standard deviations, then apply the confidence bands and the floors. -/
def getPersonalizedEstimate (history : CompletionHistory) (newChunkInfo : NewChunkInfo)
    (sensitivity : Rat := mkRat 3 10) : Option Estimate :=
  let relevantRecords := history newChunkInfo.energyTag
  if relevantRecords.length < 5 then none
  else
    let adjustedDurations := relevantRecords.map (fun r => ratDiv r.actualDurationMinutes r.difficulty)
    let totalAdjustedMinutes := adjustedDurations.foldl (fun sum d => ratAdd sum d) 0
    let totalSubSteps := relevantRecords.foldl (fun (sum : Nat) r => sum + r.subStepCount) 0
    if totalSubSteps = 0 then none
    else
      let avgMinutesPerSubStep := ratDiv totalAdjustedMinutes (ratOfNat totalSubSteps)
      let complexityBasedEstimate := ratMul avgMinutesPerSubStep (ratOfNat newChunkInfo.subStepCount)
      let sortedRecords := relevantRecords.insertionSort (fun a b => a.completedAt ≤ b.completedAt)
      let recentPerformanceEstimate :=
        calculateEWMA (sortedRecords.map (fun r => ratDiv r.actualDurationMinutes r.difficulty)) sensitivity
      let blendedP50 := jsRound (ratAdd (ratMul complexityBasedEstimate (mkRat 5 10))
        (ratMul recentPerformanceEstimate (mkRat 5 10)))
      let variance :=
        ratDiv ((adjustedDurations.map (fun d =>
          ratMul (ratSub d (ratOfInt blendedP50)) (ratSub d (ratOfInt blendedP50)))).foldl
            (fun sum sq => ratAdd sum sq) 0) (ratOfNat adjustedDurations.length)
      let stdDev := ratSqrt variance
      let blendedP90 := jsRound (ratAdd (ratOfInt blendedP50) (ratMul (mkRat 13 10) stdDev))
      let confidence :=
        if relevantRecords.length < 10 then Confidence.low
        else if relevantRecords.length < 25 then Confidence.medium
        else Confidence.high
      let finalP50 := max 5 blendedP50
      let finalP90 := max (finalP50 + 5) blendedP90
      some { p50 := finalP50, p90 := finalP90, confidence := confidence }

/-- One record of the Creative scenario history. -/
def sampleRecord (d : Rat) (t : Int) : CompletionRecord :=
  { id := "", actualDurationMinutes := d, estimatedDurationMinutes := 0,
    energyTag := EnergyTag.Creative, completedAt := t, subStepCount := 3,
    dayOfWeek := 0, difficulty := 1 }

/-- Scenario history: six Creative records with the durations of the spec
scenario, in chronological completedAt order, all at difficulty 1 and
sub-step count 3. -/
def creativeHistory : CompletionHistory := fun tag =>
  match tag with
  | EnergyTag.Creative =>
      [sampleRecord 50 0, sampleRecord 55 1, sampleRecord 60 2,
       sampleRecord 58 3, sampleRecord 62 4, sampleRecord 57 5]
  | _ => []

/-- History holding exactly 100 Creative records, for the cap witness. -/
def hist100 : CompletionHistory := fun tag =>
  match tag with
  | EnergyTag.Creative =>
      (List.range 100).map (fun i =>
        { id := "", actualDurationMinutes := 30, estimatedDurationMinutes := 0,
          energyTag := EnergyTag.Creative, completedAt := Int.ofNat (i + 1), subStepCount := 3,
          dayOfWeek := 0, difficulty := 1 })
  | _ => []

/-- Fresh record appended in the cap witness. -/
def freshInput : CompletionRecordInput :=
  { actualDurationMinutes := 40, estimatedDurationMinutes := 0, energyTag := EnergyTag.Creative,
    completedAt := 0, subStepCount := 2, dayOfWeek := 1, difficulty := 1 }

/-- Day of week of a ScheduleEvent or DNDWindow. -/
inductive Day
  | Monday | Tuesday | Wednesday | Thursday | Friday | Saturday | Sunday
deriving DecidableEq, Repr

/-- Source DAYS_OF_WEEK constant (CalendarPage). -/
def DAYS_OF_WEEK : List Day :=
  [Day.Monday, Day.Tuesday, Day.Wednesday, Day.Thursday, Day.Friday, Day.Saturday, Day.Sunday]

/-- Milliseconds per minute. -/
def msPerMinute : Int := 60000

/-- Milliseconds per hour. -/
def msPerHour : Int := 3600000

/-- Milliseconds per day. -/
def msPerDay : Int := 86400000

/-- Midnight of the day holding instant t (epoch milliseconds, fixed zone). -/
def dayStart (t : Int) : Int := msPerDay * (t.fdiv msPerDay)

/-- Model of date.setHours(h, m, 0, 0) for a date holding instant now;
JS rolls hour and minute overflow over linearly, as this formula does. -/
def setHoursInt (now h m : Int) : Int := dayStart now + (h * 60 + m) * msPerMinute

/-- Model of Date.prototype.getDay: 0 is Sunday; epoch day zero was a
Thursday (4). -/
def jsGetDay (t : Int) : Int := (t.fdiv msPerDay + 4).emod 7

/-- Source expression DAYS_OF_WEEK[now.getDay() === 0 ? 6 : now.getDay() - 1]. -/
def todayDayName (now : Int) : Day :=
  DAYS_OF_WEEK.getD (if jsGetDay now = 0 then 6 else jsGetDay now - 1).toNat Day.Monday

/-- Source interface ScheduleEvent, the anchor; fields not read by the
modeled logic (buffers, context tags) are omitted. -/
structure ScheduleEvent where
  id : String
  day : Day
  title : String
  startTime : String
  endTime : String
deriving DecidableEq, Repr

/-- Source interface DNDWindow. -/
structure DNDWindow where
  day : Day
  startTime : String
  endTime : String
deriving DecidableEq, Repr

/-- Source enum ReminderStatus. -/
inductive ReminderStatus
  | Active | Snoozed | Done | Paused | Ignored
deriving DecidableEq, Repr

/-- Source type SuccessState. -/
inductive SuccessState
  | success | snoozed | ignored
deriving DecidableEq, Repr

/-- Source interface SmartReminder; snoozedUntil and lastInteraction are
epoch-millisecond instants of the stored ISO strings, and the fields the
modeled logic never reads (why, locks, exploration, snooze history) are
omitted. -/
structure SmartReminder where
  id : String
  eventId : String
  offsetMinutes : Int
  message : String
  status : ReminderStatus
  snoozedUntil : Option Int
  successHistory : List SuccessState
  lastInteraction : Option Int
deriving DecidableEq, Repr

/-- Element shape of the list activeReminders computes: the reminder
spread together with its event, resolved trigger time and shift
annotation. -/
structure ActiveReminder where
  reminder : SmartReminder
  event : ScheduleEvent
  triggerTime : JsNum
  shiftedReason : Option String
deriving DecidableEq, Repr

/-- Source expression dndWindows.find(d => d.day === todayDay). -/
def todayDnd (now : Int) (dndWindows : List DNDWindow) : Option DNDWindow :=
  dndWindows.find? (fun d => decide (d.day = todayDayName now))

/-- setHours fed with the possibly-NaN parsed hour and minute; a NaN
component makes the date invalid (NaN time value). -/
def jsSetHours (now : Int) (h m : JsNum) : JsNum :=
  match h, m with
  | some hv, some mv => some (setHoursInt now hv mv)
  | _, _ => none

/-- Lines 823 to 835 of activeReminders: resolve the linked anchor, place
the trigger at the anchor start of today plus the offset, and let a set
snoozedUntil override it for Snoozed and Paused reminders. -/
def computeTrigger (now : Int) (scheduleEvents : List ScheduleEvent) (r : SmartReminder) :
    Option (ScheduleEvent × JsNum) :=
  match scheduleEvents.find? (fun e => decide (e.id = r.eventId)) with
  | none => none
  | some event =>
    let hm := parseHM event.startTime
    let eventDate := jsSetHours now hm.1 hm.2
    let trigger0 := jsAdd eventDate (some (r.offsetMinutes * msPerMinute))
    let trigger :=
      match r.status, r.snoozedUntil with
      | ReminderStatus.Snoozed, some t => some t
      | ReminderStatus.Paused, some t => some t
      | _, _ => trigger0
    some (event, trigger)

/-- The stale-trigger drop of activeReminders: a trigger in the past
removes the reminder unless its status is Snoozed or Paused. -/
def resolveTrigger (now : Int) (scheduleEvents : List ScheduleEvent) (r : SmartReminder) :
    Option (ScheduleEvent × JsNum) :=
  match computeTrigger now scheduleEvents r with
  | none => none
  | some (event, trigger) =>
    if jsLt trigger (some now) = true ∧ r.status ≠ ReminderStatus.Snoozed ∧
        r.status ≠ ReminderStatus.Paused then none
    else some (event, trigger)

/-- The DND window instance the source compares against: both bounds sit
on the current day, and an overnight window (end before start) is anchored
by now, with the start pulled to yesterday when now is before the end,
otherwise the end pushed to tomorrow. -/
def dndInstance (now sh sm eh em : Int) : Int × Int :=
  let dndStart := setHoursInt now sh sm
  let dndEnd := setHoursInt now eh em
  if dndEnd < dndStart then
    if now < dndEnd then (dndStart - msPerDay, dndEnd)
    else (dndStart, dndEnd + msPerDay)
  else (dndStart, dndEnd)

/-- Lines 841 to 865 of activeReminders: the DND shift. Requires a window
with truthy start and end strings whose components parse; a trigger inside
the closed instance interval is moved to the instance end and annotated. -/
def applyDnd (now : Int) (dnd : Option DNDWindow) (trigger : JsNum) : JsNum × Option String :=
  match dnd with
  | none => (trigger, none)
  | some w =>
    if w.startTime ≠ "" ∧ w.endTime ≠ "" then
      match parseHM w.startTime, parseHM w.endTime with
      | (some sh, some sm), (some eh, some em) =>
        let inst := dndInstance now sh sm eh em
        if jsGe trigger (some inst.1) && jsLe trigger (some inst.2) then
          (some inst.2, some "DND-shifted")
        else (trigger, none)
      | _, _ => (trigger, none)
    else (trigger, none)

/-- One reminder through the whole activeReminders map body. -/
def processReminder (now : Int) (scheduleEvents : List ScheduleEvent) (dnd : Option DNDWindow)
    (r : SmartReminder) : Option ActiveReminder :=
  match resolveTrigger now scheduleEvents r with
  | none => none
  | some (event, trigger) =>
    let shifted := applyDnd now dnd trigger
    some { reminder := r, event := event, triggerTime := shifted.1, shiftedReason := shifted.2 }

/-- The global pause pre-filter: pauseUntil set and still in the future. -/
def pauseActive (now : Int) (pauseUntil : Option Int) : Bool :=
  match pauseUntil with
  | some p => now < p
  | none => false

/-- Ascending order on resolved trigger times for the final sort. The JS
comparator subtracts the trigger times; when a trigger is NaN the engine
order is unspecified, and the model fixes one total order by reading NaN
as zero. No claim depends on the relative order of NaN triggers. -/
def triggerOrder (a b : ActiveReminder) : Prop :=
  a.triggerTime.getD 0 ≤ b.triggerTime.getD 0

instance : DecidableRel triggerOrder :=
  fun a b => inferInstanceAs (Decidable (a.triggerTime.getD 0 ≤ b.triggerTime.getD 0))

instance : IsTotal ActiveReminder triggerOrder :=
  ⟨fun a b => le_total (a.triggerTime.getD 0) (b.triggerTime.getD 0)⟩

instance : IsTrans ActiveReminder triggerOrder :=
  ⟨fun _ _ _ hab hbc => le_trans hab hbc⟩

/-- Source activeReminders (CalendarPage, lines 816 to 873): empty under an
active global pause, otherwise each Active, Snoozed or Paused reminder is
resolved, stale Active ones and dangling anchors dropped, the DND shift
applied, and the survivors sorted by trigger time (stable sort, modeled by
the structural insertion sort). -/
def activeReminders (now : Int) (pauseUntil : Option Int) (smartReminders : List SmartReminder)
    (scheduleEvents : List ScheduleEvent) (dndWindows : List DNDWindow) : List ActiveReminder :=
  if pauseActive now pauseUntil then []
  else
    ((smartReminders.filter (fun r =>
        decide (r.status = ReminderStatus.Active) || decide (r.status = ReminderStatus.Snoozed) ||
          decide (r.status = ReminderStatus.Paused))).filterMap
      (processReminder now scheduleEvents (todayDnd now dndWindows))).insertionSort triggerOrder

/-- Source moveEvent (CalendarPage): keep the original start unless a new
one is given (the JS or-default also treats an empty string as absent),
recompute the end as start plus the original duration, and rewrite the
matching event to the target day. A missing event id is a no-op. -/
def moveEvent (events : List ScheduleEvent) (eventId : String) (targetDay : Day)
    (newStartTime : Option String) : List ScheduleEvent :=
  match events.find? (fun e => decide (e.id = eventId)) with
  | none => events
  | some eventToMove =>
    let startTime :=
      match newStartTime with
      | some s => if s = "" then eventToMove.startTime else s
      | none => eventToMove.startTime
    let duration := jsSub (timeToMinutes eventToMove.endTime) (timeToMinutes eventToMove.startTime)
    let endTime := jsMinutesToTime (jsAdd (timeToMinutes startTime) duration)
    events.map (fun e =>
      if e.id = eventId then { e with day := targetDay, startTime := startTime, endTime := endTime }
      else e)

/-- Conflict kind surfaced by a drop. -/
inductive ConflictType
  | dnd | overlap
deriving DecidableEq, Repr

/-- The conflict state set by handleDrop. -/
structure Conflict where
  type : ConflictType
  eventToMoveId : String
  targetDay : Day
  overlappingEventId : Option String
deriving DecidableEq, Repr

/-- The three decisions resolveConflict accepts. -/
inductive ConflictResolution
  | shift_dnd | shift_overlap | keep_overlap
deriving DecidableEq, Repr

/-- Outcome of handleDrop: nothing to do, a surfaced conflict, or the
moved schedule. -/
inductive DropResult
  | noop
  | conflictFound (conflict : Conflict)
  | moved (events : List ScheduleEvent)
deriving DecidableEq, Repr

/-- Source handleDrop (CalendarPage): dropping an anchor on a day checks
the DND window of that day first, then any overlapping anchor already on
the day, surfacing at most one conflict; with no conflict the move is
committed. -/
def handleDrop (events : List ScheduleEvent) (dndWindows : List DNDWindow) (eventId : String)
    (day : Day) : DropResult :=
  match events.find? (fun e => decide (e.id = eventId)) with
  | none => DropResult.noop
  | some eventToMove =>
    if eventToMove.day = day then DropResult.noop
    else
      let dndHit :=
        match dndWindows.find? (fun w => decide (w.day = day)) with
        | some dnd => doTimesOverlap eventToMove.startTime eventToMove.endTime dnd.startTime dnd.endTime
        | none => false
      if dndHit then
        DropResult.conflictFound
          { type := ConflictType.dnd, eventToMoveId := eventId, targetDay := day,
            overlappingEventId := none }
      else
        match events.find? (fun ev => decide (ev.day = day) && !(decide (ev.id = eventId)) &&
            doTimesOverlap eventToMove.startTime eventToMove.endTime ev.startTime ev.endTime) with
        | some overlappingEvent =>
          DropResult.conflictFound
            { type := ConflictType.overlap, eventToMoveId := eventId, targetDay := day,
              overlappingEventId := some overlappingEvent.id }
        | none => DropResult.moved (moveEvent events eventId day none)

/-- Source resolveConflict (CalendarPage): keep moves as is, shift after
the overlapping anchor ends (its end minutes rendered back through
minutesToTime), or shift to the end of the target day DND window; a
missing conflict or a vanished target is a no-op. -/
def resolveConflict (events : List ScheduleEvent) (dndWindows : List DNDWindow)
    (conflict : Option Conflict) (decision : ConflictResolution) : List ScheduleEvent :=
  match conflict with
  | none => events
  | some c =>
    match decision with
    | ConflictResolution.keep_overlap => moveEvent events c.eventToMoveId c.targetDay none
    | ConflictResolution.shift_overlap =>
      match events.find? (fun e => decide (some e.id = c.overlappingEventId)) with
      | some overlappingEvent =>
        moveEvent events c.eventToMoveId c.targetDay
          (some (jsMinutesToTime (timeToMinutes overlappingEvent.endTime)))
      | none => events
    | ConflictResolution.shift_dnd =>
      match dndWindows.find? (fun w => decide (w.day = c.targetDay)) with
      | some dnd => moveEvent events c.eventToMoveId c.targetDay (some dnd.endTime)
      | none => events

/-- The target instant of the Later today action (CalendarPage lines 1048
to 1064): now plus three hours, capped to 15 minutes before the DND start
instant that the source computes, namely the start rolled to tomorrow when
the start of today has already passed; a capped value at or before now
falls back to now plus one hour. -/
def laterTarget (now : Int) (dndWindows : List DNDWindow) : Int :=
  let laterTime := now + 3 * msPerHour
  let capped :=
    match todayDnd now dndWindows with
    | some dndWindow =>
      if dndWindow.startTime ≠ "" then
        match parseHM dndWindow.startTime with
        | (some h, some m) =>
          let dndStart0 := setHoursInt now h m
          let dndStart := if dndStart0 < now then dndStart0 + msPerDay else dndStart0
          let dndCap := dndStart - 15 * msPerMinute
          if laterTime > dndCap then dndCap else laterTime
        | _ => laterTime
      else laterTime
    | none => laterTime
  if capped ≤ now then now + msPerHour else capped

/-- The later branch of handleReminderAction: a missing reminder id is a
no-op, otherwise the matching reminder becomes Snoozed at the later
target, with a snoozed entry appended to its success history. -/
def handleReminderLater (now : Int) (dndWindows : List DNDWindow)
    (smartReminders : List SmartReminder) (id : String) : List SmartReminder :=
  match smartReminders.find? (fun r => decide (r.id = id)) with
  | none => smartReminders
  | some _ =>
    smartReminders.map (fun r =>
      if r.id = id then
        { r with status := ReminderStatus.Snoozed,
                 snoozedUntil := some (laterTarget now dndWindows),
                 successHistory := r.successHistory ++ [SuccessState.snoozed],
                 lastInteraction := some now }
      else r)

/-- Follows the words of the spec sentence behind claim C7, for comparison
with the source model: now plus three hours, capped to 15 minutes before
the start of the DND window of today (no rollover to tomorrow), with the
fallback to now plus one hour when the capped value has already passed. -/
def laterTargetSpec (now : Int) (dndWindows : List DNDWindow) : Int :=
  let laterTime := now + 3 * msPerHour
  let capped :=
    match todayDnd now dndWindows with
    | some dndWindow =>
      match parseHM dndWindow.startTime with
      | (some h, some m) =>
        let dndCap := setHoursInt now h m - 15 * msPerMinute
        if dndCap < laterTime then dndCap else laterTime
      | _ => laterTime
    | none => laterTime
  if capped ≤ now then now + msPerHour else capped

/-- Follows the words of the claim C1 containment rule, for comparison
with the source model: half-open containment on minutes of the day, with
the overnight reading when the end minute is below the start minute. -/
def specDndContains (startMin endMin t : Int) : Bool :=
  if endMin < startMin then decide (t ≥ startMin) || decide (t < endMin)
  else decide (startMin ≤ t) && decide (t < endMin)

/-- Event of the stale-snooze witness. -/
def staleEvent : ScheduleEvent :=
  { id := "ev1", day := Day.Monday, title := "Anchor", startTime := "09:00", endTime := "10:00" }

/-- Snoozed reminder of the stale-snooze witness, with a snoozedUntil long
before now. -/
def staleReminder : SmartReminder :=
  { id := "rs", eventId := "ev1", offsetMinutes := 0, message := "m",
    status := ReminderStatus.Snoozed, snoozedUntil := some 5, successHistory := [],
    lastInteraction := none }

/-- DND window of the C1 demonstration, nine to ten on Thursday. -/
def dndDemoWindow : DNDWindow :=
  { day := Day.Thursday, startTime := "09:00", endTime := "10:00" }

/-- Anchor of the C1 demonstration, starting exactly at the window end. -/
def dndDemoEvent : ScheduleEvent :=
  { id := "e1", day := Day.Thursday, title := "Anchor", startTime := "10:00", endTime := "11:00" }

/-- Active reminder at offset zero on the demonstration anchor. -/
def dndDemoReminder : SmartReminder :=
  { id := "r1", eventId := "e1", offsetMinutes := 0, message := "m",
    status := ReminderStatus.Active, snoozedUntil := none, successHistory := [],
    lastInteraction := none }

/-- The list entry the demonstration produces: trigger at the window end
(minute 600 of the day, instant 36000000), annotated as shifted. -/
def dndDemoResult : ActiveReminder :=
  { reminder := dndDemoReminder, event := dndDemoEvent,
    triggerTime := some 36000000, shiftedReason := some "DND-shifted" }

/-- Anchor moved in the C6 counterexample, one hour long late at night. -/
def moverEvent : ScheduleEvent :=
  { id := "a", day := Day.Monday, title := "Mover", startTime := "22:00", endTime := "23:00" }

/-- Anchor already on the target day in the C6 counterexample. -/
def blockerEvent : ScheduleEvent :=
  { id := "b", day := Day.Tuesday, title := "Blocker", startTime := "22:30", endTime := "23:30" }

/-- The overlap conflict handleDrop surfaces for the counterexample pair. -/
def overlapConflict : Conflict :=
  { type := ConflictType.overlap, eventToMoveId := "a", targetDay := Day.Tuesday,
    overlappingEventId := some "b" }

/-- Anchor moved in the C6 witness, away from midnight. -/
def shiftMover : ScheduleEvent :=
  { id := "a", day := Day.Monday, title := "Mover", startTime := "10:00", endTime := "11:00" }

/-- Anchor already on the target day in the C6 witness. -/
def shiftBlocker : ScheduleEvent :=
  { id := "b", day := Day.Tuesday, title := "Blocker", startTime := "11:30", endTime := "12:00" }

/-- The conflict resolved in the C6 witness. -/
def shiftConflict : Conflict :=
  { type := ConflictType.overlap, eventToMoveId := "a", targetDay := Day.Tuesday,
    overlappingEventId := some "b" }

/-- The mover after the C6 witness resolution. -/
def shiftedMover : ScheduleEvent :=
  { id := "a", day := Day.Tuesday, title := "Mover", startTime := "12:00", endTime := "13:00" }

/-- DND window of the C7 demonstration, starting 08:00 on Thursday. -/
def laterWindow : DNDWindow :=
  { day := Day.Thursday, startTime := "08:00", endTime := "23:00" }

/-- Reminder acted on in the C7 demonstration. -/
def laterReminder : SmartReminder :=
  { id := "r2", eventId := "e9", offsetMinutes := 0, message := "m",
    status := ReminderStatus.Active, snoozedUntil := none, successHistory := [],
    lastInteraction := none }

theorem timeRoundTripAux :
    ∀ h : Nat, h < 24 → ∀ m : Nat, m < 60 →
      timeToMinutes (formatHHMM h m) = some ((h * 60 + m : Nat) : Int) ∧
      minutesToTime ((h * 60 + m : Nat) : Int) = formatHHMM h m := by
  decide

theorem toString_intOfNat (a : Nat) : toString ((a : Nat) : Int) = toString a := rfl

theorem minutesToTime_cast (n : Nat) :
    minutesToTime ((n : Nat) : Int) = formatHHMM (n / 60 % 24) (n % 60) := by
  have e1 : (((n : Nat) : Int).fdiv 60).tmod 24 = ((n / 60 % 24 : Nat) : Int) := by
    rw [Int.fdiv_eq_ediv _ (by norm_num)]
    rw [Int.tmod_eq_emod (Int.ediv_nonneg (by positivity) (by norm_num)) (by norm_num)]
    omega
  have e2 : ((n : Nat) : Int).tmod 60 = ((n % 60 : Nat) : Int) := by
    rw [Int.tmod_eq_emod (by positivity) (by norm_num)]
    omega
  simp only [minutesToTime, formatHHMM, pad2, e1, e2, toString_intOfNat]

/-- C9 (amended): for valid zero-padded HH:MM strings (hour at most 23,
minute at most 59) the round trip holds in both directions, and
minutesToTime wraps every NONNEGATIVE integer argument modulo 1440; the
original claim said every integer argument, which fails for negative
inputs (see the counterexample). -/
theorem time_roundtrip_amended :
    (∀ h : Nat, h ≤ 23 → ∀ m : Nat, m ≤ 59 →
      timeToMinutes (formatHHMM h m) = some ((h * 60 + m : Nat) : Int) ∧
      minutesToTime ((h * 60 + m : Nat) : Int) = formatHHMM h m) ∧
    (∀ n : Nat, minutesToTime ((n : Nat) : Int) = minutesToTime ((n % 1440 : Nat) : Int)) := by
  constructor
  · intro h hh m hm
    exact timeRoundTripAux h (by omega) m (by omega)
  · intro n
    rw [minutesToTime_cast, minutesToTime_cast]
    have e1 : n / 60 % 24 = (n % 1440) / 60 % 24 := by omega
    have e2 : n % 60 = (n % 1440) % 60 := by omega
    rw [e1, e2]

theorem time_roundtrip_amended_witness :
    timeToMinutes (formatHHMM 9 30) = some ((9 * 60 + 30 : Nat) : Int) ∧
    minutesToTime ((9 * 60 + 30 : Nat) : Int) = formatHHMM 9 30 :=
  time_roundtrip_amended.1 9 (by decide) 30 (by decide)

/-- C9 counterexample: minutesToTime does not wrap a negative integer
argument modulo 1440. At minus 90 minutes the source renders the signed
components directly (Math.floor division with the JS remainder keeping the
sign of the dividend), while wrapping modulo 1440 would give the 22:30
string; so the claim that minutesToTime wraps its integer argument modulo
1440 is false for negative inputs. -/
theorem minutesToTime_neg_no_wrap :
    minutesToTime (-90) = "-2:-30" ∧ (-90 : Int) % 1440 = 1350 ∧
    minutesToTime 1350 = "22:30" ∧
    minutesToTime (-90) ≠ minutesToTime ((-90 : Int) % 1440) := by
  decide

/-- C8: doTimesOverlap returns true exactly when startA is before endB and
endA is after startB (half-open semantics) whenever the four strings parse
to minute values; it is symmetric in its two intervals for ALL strings
(parsing failures make both sides false); and the touching intervals from
nine to ten and from ten to eleven do not overlap. -/
theorem doTimesOverlap_characterization :
    (∀ a b c d : String, ∀ va vb vc vd : Int,
      timeToMinutes a = some va → timeToMinutes b = some vb →
      timeToMinutes c = some vc → timeToMinutes d = some vd →
      (doTimesOverlap a b c d = true ↔ (va < vd ∧ vb > vc))) ∧
    (∀ a b c d : String, doTimesOverlap a b c d = doTimesOverlap c d a b) ∧
    doTimesOverlap "09:00" "10:00" "10:00" "11:00" = false := by
  refine ⟨?_, ?_, by decide⟩
  · intro a b c d va vb vc vd ha hb hc hd
    unfold doTimesOverlap
    rw [ha, hb, hc, hd]
    simp [jsLt, jsGt]
  · intro a b c d
    unfold doTimesOverlap
    cases timeToMinutes a <;> cases timeToMinutes b <;>
      cases timeToMinutes c <;> cases timeToMinutes d <;>
      simp [jsLt, jsGt] <;> exact Bool.and_comm _ _

theorem doTimesOverlap_characterization_witness :
    doTimesOverlap "09:00" "10:00" "08:00" "11:00" = true ↔
      ((540 : Int) < 660 ∧ (600 : Int) > 480) :=
  doTimesOverlap_characterization.1 "09:00" "10:00" "08:00" "11:00" 540 600 480 660
    (by decide) (by decide) (by decide) (by decide)

/-
Exact rational arithmetic for the estimation engine. The Batteries
implementations of the field operations on Rat are marked irreducible, so
concrete results could not be evaluated inside the kernel; these operators
compute the same rational numbers directly on the num/den representation
(the agreement lemmas below prove this) and reduce in the kernel.
-/

theorem rat_mul_den (q : Rat) : q * (q.den : Rat) = (q.num : Rat) := by
  nth_rewrite 1 [← Rat.num_div_den q]
  exact div_mul_cancel₀ _ (by exact_mod_cast q.den_nz)

theorem ratMul_eq (a b : Rat) : ratMul a b = a * b := by
  rw [ratMul, Rat.mkRat_eq_div]
  push_cast
  rw [← div_mul_div_comm, Rat.num_div_den, Rat.num_div_den]

theorem ratAdd_eq (a b : Rat) : ratAdd a b = a + b := by
  have ha : (a.den : Rat) ≠ 0 := by exact_mod_cast a.den_nz
  have hb : (b.den : Rat) ≠ 0 := by exact_mod_cast b.den_nz
  rw [ratAdd, Rat.mkRat_eq_div]
  push_cast
  rw [show (a : Rat) + b = a.num / a.den + b.num / b.den by
    rw [Rat.num_div_den, Rat.num_div_den]]
  field_simp

theorem ratSub_eq (a b : Rat) : ratSub a b = a - b := by
  have ha : (a.den : Rat) ≠ 0 := by exact_mod_cast a.den_nz
  have hb : (b.den : Rat) ≠ 0 := by exact_mod_cast b.den_nz
  rw [ratSub, Rat.mkRat_eq_div]
  push_cast
  rw [show (a : Rat) - b = a.num / a.den - b.num / b.den by
    rw [Rat.num_div_den, Rat.num_div_den]]
  field_simp
  ring

theorem ratDiv_eq (a b : Rat) : ratDiv a b = a / b := by
  rcases eq_or_ne b.num 0 with h0 | h0
  · have hb : b = 0 := by rwa [Rat.num_eq_zero] at h0
    subst hb
    simp [ratDiv]
  · have ha : (a.den : Rat) ≠ 0 := by exact_mod_cast a.den_nz
    have hnabs : ((b.num.natAbs : Nat) : Rat) ≠ 0 := by
      simp [Int.natAbs_ne_zero, h0]
    have h1 : ((b.num.sign : Int) : Rat) * ((b.num.natAbs : Nat) : Rat) = ((b.num : Int) : Rat) := by
      rw [← Int.cast_natCast, ← Int.cast_mul, Int.sign_mul_natAbs]
    have h2 : ((b.num.sign : Int) : Rat) * ((b.num.sign : Int) : Rat) = 1 := by
      rcases lt_trichotomy b.num 0 with h | h | h
      · rw [Int.sign_eq_neg_one_iff_neg.mpr h]
        norm_num
      · exact absurd h h0
      · rw [Int.sign_eq_one_iff_pos.mpr h]
        norm_num
    have hb0 : b ≠ 0 := fun h => h0 (by simp [h])
    have haa := rat_mul_den a
    have hbb := rat_mul_den b
    rw [ratDiv, Rat.mkRat_eq_div]
    push_cast
    rw [div_eq_div_iff (mul_ne_zero ha hnabs) hb0]
    linear_combination (-((b.den : Rat) * (b.num.sign : Rat) * b)) * haa +
      (a * (a.den : Rat) * (b.num.sign : Rat)) * hbb +
      (-(a * (a.den : Rat) * (b.num.sign : Rat))) * h1 +
      (a * (a.den : Rat) * (b.num.natAbs : Rat)) * h2

theorem list_foldl_add_sum (l : List CompletionRecord) (n : Nat) :
    l.foldl (fun (sum : Nat) r => sum + r.subStepCount) n
      = n + (l.map (fun r => r.subStepCount)).sum := by
  induction l generalizing n with
  | nil => simp
  | cons a t ih => simp [ih, Nat.add_assoc]

/-- C2: getPersonalizedEstimate returns none exactly when the target
category has fewer than 5 records or the sub-step counts of its records
sum to zero; every other input yields a some result (the function is total,
so nothing can be thrown across the boundary). -/
theorem getPersonalizedEstimate_none_iff (history : CompletionHistory) (info : NewChunkInfo)
    (sensitivity : Rat) :
    getPersonalizedEstimate history info sensitivity = none ↔
      (history info.energyTag).length < 5 ∨
        ((history info.energyTag).map (fun r => r.subStepCount)).sum = 0 := by
  unfold getPersonalizedEstimate
  by_cases h5 : (history info.energyTag).length < 5
  · simp [h5]
  · simp only [if_neg h5]
    by_cases h0 : ((history info.energyTag).map (fun r => r.subStepCount)).sum = 0
    · have hf : (history info.energyTag).foldl (fun (sum : Nat) r => sum + r.subStepCount) 0 = 0 := by
        rw [list_foldl_add_sum]
        omega
      simp [hf, h0]
    · have hf : ¬ ((history info.energyTag).foldl (fun (sum : Nat) r => sum + r.subStepCount) 0 = 0) := by
        rw [list_foldl_add_sum]
        omega
      simp [hf, h5, h0]

/-- C3: on the Creative scenario history the estimator (at its default
sensitivity 0.3) returns a non-null estimate whose p50 is 57 (inside the
claimed 57 to 60 range) with confidence low. -/
theorem getPersonalizedEstimate_creative_scenario :
    ∃ e : Estimate,
      getPersonalizedEstimate creativeHistory
          { energyTag := EnergyTag.Creative, subStepCount := 3 } = some e ∧
      57 ≤ e.p50 ∧ e.p50 ≤ 60 ∧ e.confidence = Confidence.low := by
  refine ⟨{ p50 := 57, p90 := 65, confidence := Confidence.low }, by decide, by decide, by decide, rfl⟩

/-- C4: every non-null estimate satisfies the floors, p50 at least 5 and
p90 at least p50 plus 5. -/
theorem getPersonalizedEstimate_floors (history : CompletionHistory) (info : NewChunkInfo)
    (sensitivity : Rat) (e : Estimate)
    (h : getPersonalizedEstimate history info sensitivity = some e) :
    5 ≤ e.p50 ∧ e.p50 + 5 ≤ e.p90 := by
  unfold getPersonalizedEstimate at h
  by_cases h5 : (history info.energyTag).length < 5
  · simp [h5] at h
  · simp only [if_neg h5] at h
    by_cases h0 :
        (history info.energyTag).foldl (fun (sum : Nat) r => sum + r.subStepCount) 0 = 0
    · simp [h0] at h
    · simp only [if_neg h0] at h
      rw [Option.some.injEq] at h
      subst h
      exact ⟨le_max_left _ _, le_max_left _ _⟩

theorem getPersonalizedEstimate_floors_witness :
    5 ≤ ({ p50 := 57, p90 := 65, confidence := Confidence.low } : Estimate).p50 ∧
    ({ p50 := 57, p90 := 65, confidence := Confidence.low } : Estimate).p50 + 5 ≤
      ({ p50 := 57, p90 := 65, confidence := Confidence.low } : Estimate).p90 :=
  getPersonalizedEstimate_floors creativeHistory
    { energyTag := EnergyTag.Creative, subStepCount := 3 } (mkRat 3 10)
    { p50 := 57, p90 := 65, confidence := Confidence.low } (by decide)

/-- C5: appending to a category at the 100-record cap leaves exactly 100
records and evicts a record that is oldest by completion time among the
101 candidates; appending to a category below the cap evicts nothing. -/
theorem addRecordToHistory_cap (history : CompletionHistory) (record : CompletionRecordInput)
    (now : Int) :
    ((history record.energyTag).length < 100 →
      addRecordToHistory history record now record.energyTag =
        history record.energyTag ++ [mkCompletionRecord record now]) ∧
    ((history record.energyTag).length = 100 →
      (addRecordToHistory history record now record.energyTag).length = 100 ∧
      ∃ d, (addRecordToHistory history record now record.energyTag ++ [d]).Perm
            (history record.energyTag ++ [mkCompletionRecord record now]) ∧
          ∀ r ∈ history record.energyTag ++ [mkCompletionRecord record now],
            d.completedAt ≤ r.completedAt) := by
  constructor
  · intro hlt
    have hc : ¬ (MAX_RECORDS_PER_TAG <
        (history record.energyTag ++ [mkCompletionRecord record now]).length) := by
      simp only [List.length_append, List.length_cons, List.length_nil, MAX_RECORDS_PER_TAG]
      omega
    have hform : addRecordToHistory history record now record.energyTag =
        history record.energyTag ++ [mkCompletionRecord record now] := by
      simp only [addRecordToHistory]
      rw [if_neg hc]
      simp
    exact hform
  · intro h100
    have hlen : (history record.energyTag ++ [mkCompletionRecord record now]).length = 101 := by
      simp [h100]
    have hc : MAX_RECORDS_PER_TAG <
        (history record.energyTag ++ [mkCompletionRecord record now]).length := by
      rw [hlen]
      norm_num [MAX_RECORDS_PER_TAG]
    have hform : addRecordToHistory history record now record.energyTag =
        ((history record.energyTag ++ [mkCompletionRecord record now]).insertionSort
          newestFirst).take MAX_RECORDS_PER_TAG := by
      simp only [addRecordToHistory]
      rw [if_pos hc]
      simp
    rw [hform, MAX_RECORDS_PER_TAG]
    set L := history record.energyTag ++ [mkCompletionRecord record now] with hL
    set s := L.insertionSort newestFirst with hs
    have hperm : s.Perm L := L.perm_insertionSort newestFirst
    have hslen : s.length = 101 := by rw [hperm.length_eq, hlen]
    have hdrop : (s.drop 100).length = 1 := by simp [hslen]
    obtain ⟨d, hd⟩ := List.length_eq_one.mp hdrop
    have hsplit : s.take 100 ++ [d] = s := by
      rw [← hd]
      exact List.take_append_drop 100 s
    have hsort : List.Pairwise newestFirst s := L.sorted_insertionSort newestFirst
    have hsort2 : List.Pairwise newestFirst (s.take 100 ++ [d]) := by
      rw [hsplit]
      exact hsort
    refine ⟨?_, d, ?_, ?_⟩
    · rw [List.length_take, hslen]
      norm_num
    · rw [hsplit]
      exact hperm
    · intro r hr
      have hrs : r ∈ s := hperm.mem_iff.mpr hr
      rw [← hsplit] at hrs
      rcases List.mem_append.mp hrs with hx | hx
      · exact (List.pairwise_append.mp hsort2).2.2 r hx d (List.mem_singleton_self d)
      · rw [List.mem_singleton.mp hx]

theorem addRecordToHistory_cap_witness :
    (addRecordToHistory hist100 freshInput 1000 EnergyTag.Creative).length = 100 ∧
    ∃ d, (addRecordToHistory hist100 freshInput 1000 EnergyTag.Creative ++ [d]).Perm
          (hist100 EnergyTag.Creative ++ [mkCompletionRecord freshInput 1000]) ∧
        ∀ r ∈ hist100 EnergyTag.Creative ++ [mkCompletionRecord freshInput 1000],
          d.completedAt ≤ r.completedAt :=
  (addRecordToHistory_cap hist100 freshInput 1000).2 (by simp [hist100, freshInput])

/-- C10: a Snoozed or Paused reminder whose snoozedUntil is already in the
past is still included in the activeReminders list (pause inactive and
anchor resolved), its pre-shift trigger being exactly that past
snoozedUntil; the stale-trigger drop removes only Active reminders whose
computed trigger is before now. -/
theorem activeReminders_snoozed_stale_included
    (now : Int) (pauseUntil : Option Int) (smartReminders : List SmartReminder)
    (scheduleEvents : List ScheduleEvent) (dndWindows : List DNDWindow)
    (r : SmartReminder) (ev : ScheduleEvent) (t : Int)
    (hpause : pauseActive now pauseUntil = false)
    (hmem : r ∈ smartReminders)
    (hstatus : r.status = ReminderStatus.Snoozed ∨ r.status = ReminderStatus.Paused)
    (hsnooze : r.snoozedUntil = some t)
    (hpast : t < now)
    (hev : scheduleEvents.find? (fun e => decide (e.id = r.eventId)) = some ev) :
    (resolveTrigger now scheduleEvents r = some (ev, some t)) ∧
    (∃ res ∈ activeReminders now pauseUntil smartReminders scheduleEvents dndWindows,
      res.reminder = r ∧
      res.triggerTime = (applyDnd now (todayDnd now dndWindows) (some t)).1 ∧
      res.shiftedReason = (applyDnd now (todayDnd now dndWindows) (some t)).2) ∧
    (∀ r2 ev2 trig, r2.status = ReminderStatus.Active →
      computeTrigger now scheduleEvents r2 = some (ev2, trig) →
      jsLt trig (some now) = true →
      processReminder now scheduleEvents (todayDnd now dndWindows) r2 = none) := by
  have h1 : computeTrigger now scheduleEvents r = some (ev, some t) := by
    rcases hstatus with h | h <;> simp [computeTrigger, hev, h, hsnooze]
  have h2 : resolveTrigger now scheduleEvents r = some (ev, some t) := by
    rcases hstatus with h | h <;> simp [resolveTrigger, h1, h]
  have hproc : processReminder now scheduleEvents (todayDnd now dndWindows) r =
      some { reminder := r, event := ev,
             triggerTime := (applyDnd now (todayDnd now dndWindows) (some t)).1,
             shiftedReason := (applyDnd now (todayDnd now dndWindows) (some t)).2 } := by
    simp [processReminder, h2]
  refine ⟨h2, ?_, ?_⟩
  · have hfilt : r ∈ smartReminders.filter (fun r =>
        decide (r.status = ReminderStatus.Active) || decide (r.status = ReminderStatus.Snoozed) ||
          decide (r.status = ReminderStatus.Paused)) := by
      refine List.mem_filter.mpr ⟨hmem, ?_⟩
      rcases hstatus with h | h <;> simp [h]
    refine ⟨{ reminder := r, event := ev,
              triggerTime := (applyDnd now (todayDnd now dndWindows) (some t)).1,
              shiftedReason := (applyDnd now (todayDnd now dndWindows) (some t)).2 }, ?_, rfl, rfl, rfl⟩
    simp only [activeReminders, hpause, Bool.false_eq_true, if_false, List.mem_insertionSort]
    exact List.mem_filterMap.mpr ⟨r, hfilt, hproc⟩
  · intro r2 ev2 trig hact hct hlt
    simp [processReminder, resolveTrigger, hct, hact, hlt]

theorem activeReminders_snoozed_stale_included_witness :
    (resolveTrigger 1000000 [staleEvent] staleReminder = some (staleEvent, some 5)) ∧
    (∃ res ∈ activeReminders 1000000 none [staleReminder] [staleEvent] [],
      res.reminder = staleReminder ∧
      res.triggerTime = (applyDnd 1000000 (todayDnd 1000000 []) (some 5)).1 ∧
      res.shiftedReason = (applyDnd 1000000 (todayDnd 1000000 []) (some 5)).2) :=
  ⟨(activeReminders_snoozed_stale_included 1000000 none [staleReminder] [staleEvent] []
      staleReminder staleEvent 5 (by decide) (by decide) (Or.inl (by decide)) (by decide)
      (by decide) (by decide)).1,
   (activeReminders_snoozed_stale_included 1000000 none [staleReminder] [staleEvent] []
      staleReminder staleEvent 5 (by decide) (by decide) (Or.inl (by decide)) (by decide)
      (by decide) (by decide)).2.1⟩

/-- C1 (amended): for every entry of the activeReminders list, when the
window of today has truthy parseable bounds, the shifted annotation is
carried exactly when the pre-shift trigger lies in the CLOSED interval of
the window instance the source anchors at now (for an overnight window
the instance is start-yesterday to end-today when now is before the end,
else start-today to end-tomorrow); a shifted trigger lands on the instance
end; an unshifted one is unchanged; and the resolved trigger never lies in
the half-open interior of that instance. The original claim used half-open
containment on minutes of the day, which the code contradicts both at the
window end (closed there) and for overnight windows on the evening side of
the anchored instance (see the counterexample). -/
theorem activeReminders_dnd_shift_amended
    (now : Int) (pauseUntil : Option Int) (smartReminders : List SmartReminder)
    (scheduleEvents : List ScheduleEvent) (dndWindows : List DNDWindow)
    (w : DNDWindow) (sh sm eh em : Int) (res : ActiveReminder)
    (hw : todayDnd now dndWindows = some w)
    (hs1 : w.startTime ≠ "") (hs2 : w.endTime ≠ "")
    (hps : parseHM w.startTime = (some sh, some sm))
    (hpe : parseHM w.endTime = (some eh, some em))
    (hres : res ∈ activeReminders now pauseUntil smartReminders scheduleEvents dndWindows) :
    ∃ trig : JsNum,
      resolveTrigger now scheduleEvents res.reminder = some (res.event, trig) ∧
      (res.shiftedReason = some "DND-shifted" ↔
        ∃ t, trig = some t ∧ (dndInstance now sh sm eh em).1 ≤ t ∧
          t ≤ (dndInstance now sh sm eh em).2) ∧
      (res.shiftedReason = some "DND-shifted" →
        res.triggerTime = some (dndInstance now sh sm eh em).2) ∧
      (res.shiftedReason = none → res.triggerTime = trig) ∧
      (∀ u, res.triggerTime = some u →
        ¬((dndInstance now sh sm eh em).1 ≤ u ∧ u < (dndInstance now sh sm eh em).2)) := by
  by_cases hp : pauseActive now pauseUntil = true
  · rw [activeReminders, if_pos hp] at hres
    exact absurd hres (List.not_mem_nil res)
  · have hp' : pauseActive now pauseUntil = false := by
      revert hp
      cases pauseActive now pauseUntil <;> simp
    simp only [activeReminders, hp', Bool.false_eq_true, if_false, List.mem_insertionSort] at hres
    obtain ⟨r, hrf, hpr⟩ := List.mem_filterMap.mp hres
    cases hrt : resolveTrigger now scheduleEvents r with
    | none => simp [processReminder, hrt] at hpr
    | some pair =>
      obtain ⟨event, trig⟩ := pair
      simp only [processReminder, hrt, Option.some.injEq] at hpr
      subst hpr
      refine ⟨trig, hrt, ?_⟩
      by_cases hin : (jsGe trig (some (dndInstance now sh sm eh em).1) &&
          jsLe trig (some (dndInstance now sh sm eh em).2)) = true
      · have happ : applyDnd now (todayDnd now dndWindows) trig =
            (some (dndInstance now sh sm eh em).2, some "DND-shifted") := by
          simp [applyDnd, hw, hs1, hs2, hps, hpe, hin]
        refine ⟨?_, ?_, ?_, ?_⟩
        · simp only [happ]
          constructor
          · intro _
            cases trig with
            | none => simp [jsGe] at hin
            | some t =>
              rw [Bool.and_eq_true] at hin
              exact ⟨t, rfl, by simpa [jsGe] using hin.1, by simpa [jsLe] using hin.2⟩
          · intro _
            trivial
        · intro _
          simp [happ]
        · intro hnone
          simp [happ] at hnone
        · intro u hu
          simp only [happ] at hu
          rw [Option.some.injEq] at hu
          subst hu
          rintro ⟨_, hlt2⟩
          exact lt_irrefl _ hlt2
      · have happ : applyDnd now (todayDnd now dndWindows) trig = (trig, none) := by
          simp [applyDnd, hw, hs1, hs2, hps, hpe, hin]
        refine ⟨?_, ?_, ?_, ?_⟩
        · simp only [happ]
          constructor
          · intro hcontra
            simp at hcontra
          · rintro ⟨t, htrig, hb1, hb2⟩
            subst htrig
            simp [jsGe, jsLe, hb1, hb2] at hin
        · intro hcontra
          simp [happ] at hcontra
        · intro _
          simp [happ]
        · intro u hu
          simp only [happ] at hu
          subst hu
          rintro ⟨hb1, hb2⟩
          simp [jsGe, jsLe, hb1, le_of_lt hb2] at hin

/-- C1 counterexample: at instant 0 (a Thursday) with window 09:00 to
10:00, the reminder triggering at 10:00 (minute 600, exactly the window
end) is NOT inside the half-open window of the claim, yet the produced
list entry carries the DND-shifted annotation; so the claim that a
reminder whose trigger does not fall inside the (half-open) window carries
no annotation is false on the code, whose containment test is inclusive of
the window end. -/
theorem activeReminders_dnd_counterexample :
    activeReminders 0 none [dndDemoReminder] [dndDemoEvent] [dndDemoWindow] = [dndDemoResult] ∧
    timeToMinutes dndDemoEvent.startTime = some 600 ∧
    timeToMinutes dndDemoWindow.startTime = some 540 ∧
    timeToMinutes dndDemoWindow.endTime = some 600 ∧
    specDndContains 540 600 600 = false ∧
    dndDemoResult.shiftedReason = some "DND-shifted" := by
  decide

theorem activeReminders_dnd_shift_amended_witness :
    ∃ trig : JsNum,
      resolveTrigger 0 [dndDemoEvent] dndDemoResult.reminder = some (dndDemoResult.event, trig) ∧
      (dndDemoResult.shiftedReason = some "DND-shifted" ↔
        ∃ t, trig = some t ∧ (dndInstance 0 9 0 10 0).1 ≤ t ∧ t ≤ (dndInstance 0 9 0 10 0).2) ∧
      (dndDemoResult.shiftedReason = some "DND-shifted" →
        dndDemoResult.triggerTime = some (dndInstance 0 9 0 10 0).2) ∧
      (dndDemoResult.shiftedReason = none → dndDemoResult.triggerTime = trig) ∧
      (∀ u, dndDemoResult.triggerTime = some u →
        ¬((dndInstance 0 9 0 10 0).1 ≤ u ∧ u < (dndInstance 0 9 0 10 0).2)) :=
  activeReminders_dnd_shift_amended 0 none [dndDemoReminder] [dndDemoEvent] [dndDemoWindow]
    dndDemoWindow 9 0 10 0 dndDemoResult (by decide) (by decide) (by decide) (by decide)
    (by decide) (by decide)

theorem minutesToTime_ne_empty (v : Int) : minutesToTime v ≠ "" := by
  intro h
  have hl := congrArg String.length h
  rw [minutesToTime] at hl
  rw [String.length_append, String.length_append] at hl
  have h1 : (":" : String).length = 1 := rfl
  have h0 : ("" : String).length = 0 := rfl
  rw [h1, h0] at hl
  omega

theorem timeToMinutes_minutesToTime (v : Int) (h0 : 0 ≤ v) (h1 : v < 1440) :
    timeToMinutes (minutesToTime v) = some v := by
  obtain ⟨n, rfl⟩ : ∃ n : Nat, v = (n : Int) := ⟨v.toNat, (Int.toNat_of_nonneg h0).symm⟩
  have hn : n < 1440 := by exact_mod_cast h1
  have h24 : n / 60 < 24 := by omega
  have h60 : n % 60 < 60 := by omega
  have heq : n / 60 % 24 = n / 60 := by omega
  have heq2 : n / 60 * 60 + n % 60 = n := by omega
  calc timeToMinutes (minutesToTime (n : Int))
      = timeToMinutes (formatHHMM (n / 60) (n % 60)) := by rw [minutesToTime_cast, heq]
    _ = some ((n / 60 * 60 + n % 60 : Nat) : Int) := (timeRoundTripAux (n / 60) h24 (n % 60) h60).1
    _ = some ((n : Nat) : Int) := by rw [heq2]

/-- C6 (amended): resolving an overlap conflict with shift to avoid moves
the anchor to the target day with its start equal to the overlapping
anchor end (whenever that end is a canonical HH:MM string, which the
renormalization through minutesToTime preserves), and the duration in
minutes is preserved PROVIDED the new start plus the duration stays inside
the day (0 to 1439); crossing midnight wraps the end time and breaks the
unconditional duration invariance of the original claim (see the
counterexample). -/
theorem resolveConflict_shift_overlap_amended
    (events : List ScheduleEvent) (dndWindows : List DNDWindow) (c : Conflict)
    (mover ov : ScheduleEvent) (oe ms me : Int)
    (hov : events.find? (fun e => decide (some e.id = c.overlappingEventId)) = some ov)
    (hmover : events.find? (fun e => decide (e.id = c.eventToMoveId)) = some mover)
    (hoe : timeToMinutes ov.endTime = some oe)
    (hcanon : minutesToTime oe = ov.endTime)
    (hms : timeToMinutes mover.startTime = some ms)
    (hme : timeToMinutes mover.endTime = some me)
    (hlo : 0 ≤ oe + (me - ms)) (hhi : oe + (me - ms) < 1440) :
    ∀ m2 ∈ resolveConflict events dndWindows (some c) ConflictResolution.shift_overlap,
      m2.id = c.eventToMoveId →
      m2.day = c.targetDay ∧ m2.startTime = ov.endTime ∧
      jsSub (timeToMinutes m2.endTime) (timeToMinutes m2.startTime) = some (me - ms) := by
  intro m2 hm2 hid
  have hne : ov.endTime ≠ "" := by
    rw [← hcanon]
    exact minutesToTime_ne_empty oe
  simp only [resolveConflict, hov, moveEvent, hmover, hoe, jsMinutesToTime, hcanon,
    if_neg hne, hme, hms, jsSub, jsAdd] at hm2
  obtain ⟨e, he, rfl⟩ := List.mem_map.mp hm2
  by_cases heid : e.id = c.eventToMoveId
  · simp only [if_pos heid]
    refine ⟨trivial, trivial, ?_⟩
    rw [timeToMinutes_minutesToTime _ hlo hhi, hoe]
    simp only [jsSub, Option.some.injEq]
    omega
  · simp only [if_neg heid] at hid
    exact absurd hid heid

/-- C6 counterexample: dropping the mover on Tuesday surfaces the overlap
conflict with exactly the blocker id, but resolving it with shift to
avoid starts the mover at 23:30 and recomputes its end as 00:30 across
midnight: the end minus start duration becomes minus 1380 minutes instead
of the original 60, so the claim that every move through moveEvent leaves
the duration unchanged is false. -/
theorem moveEvent_duration_counterexample :
    handleDrop [moverEvent, blockerEvent] [] "a" Day.Tuesday =
      DropResult.conflictFound overlapConflict ∧
    resolveConflict [moverEvent, blockerEvent] [] (some overlapConflict)
        ConflictResolution.shift_overlap =
      [{ id := "a", day := Day.Tuesday, title := "Mover",
         startTime := "23:30", endTime := "00:30" },
       blockerEvent] ∧
    jsSub (timeToMinutes moverEvent.endTime) (timeToMinutes moverEvent.startTime) = some 60 ∧
    jsSub (timeToMinutes "00:30") (timeToMinutes "23:30") = some (-1380) ∧
    ¬((some (-1380) : JsNum) = some 60) := by
  decide

theorem resolveConflict_shift_overlap_amended_witness :
    shiftedMover.day = shiftConflict.targetDay ∧
    shiftedMover.startTime = shiftBlocker.endTime ∧
    jsSub (timeToMinutes shiftedMover.endTime) (timeToMinutes shiftedMover.startTime) =
      some (660 - 600) :=
  resolveConflict_shift_overlap_amended [shiftMover, shiftBlocker] [] shiftConflict
    shiftMover shiftBlocker 720 600 660 (by decide) (by decide) (by decide) (by decide)
    (by decide) (by decide) (by decide) (by decide) shiftedMover (by decide) (by decide)

/-- C7 (amended): the later action snoozes the matching reminder to a
target characterized against the DND start instant the source computes:
today at the window start, rolled to tomorrow when that instant is
strictly before now; the target is now plus three hours capped to 15
minutes before that instant, and the fallback to now plus one hour fires
exactly when the cap is at or before now (only possible while now sits in
the 15 minutes up to the window start). The original claim capped against
the start of today without the rollover, which the code contradicts once
the start has passed (see the counterexample). -/
theorem laterTargetArith (now ds : Int) :
    (if (if now + 3 * 3600000 > (if ds < now then ds + 86400000 else ds) - 15 * 60000 then
           (if ds < now then ds + 86400000 else ds) - 15 * 60000
         else now + 3 * 3600000) ≤ now
     then now + 3600000
     else
       (if now + 3 * 3600000 > (if ds < now then ds + 86400000 else ds) - 15 * 60000 then
          (if ds < now then ds + 86400000 else ds) - 15 * 60000
        else now + 3 * 3600000)) =
    (if (if ds < now then ds + 86400000 else ds) - 15 * 60000 ≤ now
     then now + 3600000
     else min (now + 3 * 3600000) ((if ds < now then ds + 86400000 else ds) - 15 * 60000)) := by
  simp only [min_def]
  split_ifs <;> omega

theorem handleReminderLater_amended
    (now : Int) (dndWindows : List DNDWindow) (smartReminders : List SmartReminder)
    (id : String) (r : SmartReminder) (w : DNDWindow) (h m : Int)
    (hmem : r ∈ smartReminders) (hid : r.id = id)
    (hw : todayDnd now dndWindows = some w)
    (hne : w.startTime ≠ "")
    (hp : parseHM w.startTime = (some h, some m)) :
    laterTarget now dndWindows =
      (if (if setHoursInt now h m < now then setHoursInt now h m + msPerDay
            else setHoursInt now h m) - 15 * msPerMinute ≤ now
       then now + msPerHour
       else min (now + 3 * msPerHour)
         ((if setHoursInt now h m < now then setHoursInt now h m + msPerDay
            else setHoursInt now h m) - 15 * msPerMinute)) ∧
    { r with status := ReminderStatus.Snoozed,
             snoozedUntil := some (laterTarget now dndWindows),
             successHistory := r.successHistory ++ [SuccessState.snoozed],
             lastInteraction := some now } ∈
      handleReminderLater now dndWindows smartReminders id := by
  constructor
  · simp only [laterTarget, hw, hne, hp, ne_eq, not_false_eq_true, if_true,
      msPerHour, msPerDay, msPerMinute]
    exact laterTargetArith now (setHoursInt now h m)
  · have hfind : (smartReminders.find? (fun x => decide (x.id = id))).isSome := by
      rw [List.find?_isSome]
      exact ⟨r, hmem, by simp [hid]⟩
    obtain ⟨r0, hr0⟩ := Option.isSome_iff_exists.mp hfind
    simp only [handleReminderLater, hr0]
    refine List.mem_map.mpr ⟨r, hmem, ?_⟩
    simp [hid]

/-- C7 counterexample: at 09:00 on a Thursday (instant 32400000) with the
DND start 08:00 already passed, the code rolls the cap to 07:45 of
tomorrow and books the reminder at the uncapped now plus three hours
(43200000, noon); the claim as worded caps against 07:45 of TODAY, which
has passed, so it would fall back to now plus one hour (36000000, ten in
the morning). The two targets differ, refuting the claim. -/
theorem handleReminderLater_counterexample :
    laterTarget 32400000 [laterWindow] = 43200000 ∧
    laterTargetSpec 32400000 [laterWindow] = 36000000 ∧
    laterTarget 32400000 [laterWindow] ≠ laterTargetSpec 32400000 [laterWindow] ∧
    (handleReminderLater 32400000 [laterWindow] [laterReminder] "r2").map
      (fun r => (r.status, r.snoozedUntil)) =
      [(ReminderStatus.Snoozed, some 43200000)] := by
  decide

theorem handleReminderLater_amended_witness :
    laterTarget 32400000 [laterWindow] =
      (if (if setHoursInt 32400000 8 0 < 32400000 then setHoursInt 32400000 8 0 + msPerDay
            else setHoursInt 32400000 8 0) - 15 * msPerMinute ≤ 32400000
       then 32400000 + msPerHour
       else min (32400000 + 3 * msPerHour)
         ((if setHoursInt 32400000 8 0 < 32400000 then setHoursInt 32400000 8 0 + msPerDay
            else setHoursInt 32400000 8 0) - 15 * msPerMinute)) ∧
    { laterReminder with status := ReminderStatus.Snoozed,
                         snoozedUntil := some (laterTarget 32400000 [laterWindow]),
                         successHistory := laterReminder.successHistory ++ [SuccessState.snoozed],
                         lastInteraction := some 32400000 } ∈
      handleReminderLater 32400000 [laterWindow] [laterReminder] "r2" :=
  handleReminderLater_amended 32400000 [laterWindow] [laterReminder] "r2" laterReminder
    laterWindow 8 0 (by decide) (by decide) (by decide) (by decide) (by decide)
